import Mathlib

/-!
Verification development for the Advanced-Solar design editor
(`src/components/DesignEditor.tsx`).

The geometric engine is shallowly embedded over exact rationals (ℚ):
JavaScript numbers become ℚ (NaN/Infinity inputs are outside the rational
model and are noted where the source guards against them), and the external
turf.js / SunCalc library calls (`turf.destination`, `turf.distance`,
`turf.bearing`, `turf.centroid`, `turf.area`, `turf.buffer`,
`turf.booleanWithin`, `turf.union`, `SunCalc.getPosition`, `Math.tan`,
`Math.cos`) are abstracted as function parameters.  Fallible library calls
(ones the source wraps in try/catch, or that may return null) return
`Option`.  All embedded definitions follow the control flow of the source
line by line.
-/

namespace Solar

/-- A 2D map coordinate, as handed around between maptalks and turf
(`coordinate.x`, `coordinate.y`). -/
structure Pt where
  x : ℚ
  y : ℚ
deriving DecidableEq, Repr

/-- A 3D coordinate (`new maptalks.Coordinate(x, y, z)`), used by the wall
builder. -/
structure Pt3 where
  x : ℚ
  y : ℚ
  z : ℚ
deriving DecidableEq, Repr

/-- A linear ring (list of coordinates), the payload of a turf polygon ring
or of a maptalks polygon shell. -/
abbrev RingCoords := List Pt

/-- A turf polygon: `turf.polygon(rings)` with `rings : coordinates`.
Polygons built by the editor always carry a single ring. -/
structure TPoly where
  rings : List RingCoords
deriving DecidableEq, Repr

/-- `DesignEditor.tsx` line 25: `const SNAP_DISTANCE_PX = 15`. -/
def SNAP_DISTANCE_PX : ℚ := 15

/-- The feet→meters factor `0.3048` used throughout `DesignEditor.tsx`
(e.g. `feet * 0.3048`, and the helper `meters`). -/
def ftToM : ℚ := 3048 / 10000

/-- JavaScript `Math.trunc`-style integer part used by the `%` operator:
rounds toward zero. -/
def jsTrunc (q : ℚ) : ℤ := if 0 ≤ q then ⌊q⌋ else ⌈q⌉

/-- The JavaScript remainder operator `x % n`: `x - n * trunc(x / n)`.
(The sign follows the dividend; for `x ≥ 0, n > 0` it is the ordinary
mod.  `x % 0` is NaN in JavaScript and never reached by the theorems,
which carry positivity hypotheses on the divisor.) -/
def jsMod (x n : ℚ) : ℚ := x - n * jsTrunc (x / n)

theorem jsMod_eq_fract (x n : ℚ) (hx : 0 ≤ x) (hn : 0 < n) :
    jsMod x n = n * Int.fract (x / n) := by
  have hxn : 0 ≤ x / n := div_nonneg hx hn.le
  unfold jsMod jsTrunc
  rw [if_pos hxn, Int.fract]
  have h : n * (x / n - ⌊x / n⌋) = n * (x / n) - n * ⌊x / n⌋ := by ring
  rw [h, mul_div_cancel₀ x hn.ne']

theorem jsMod_nonneg (x n : ℚ) (hx : 0 ≤ x) (hn : 0 < n) : 0 ≤ jsMod x n := by
  rw [jsMod_eq_fract x n hx hn]
  exact mul_nonneg hn.le (Int.fract_nonneg _)

theorem jsMod_lt (x n : ℚ) (hx : 0 ≤ x) (hn : 0 < n) : jsMod x n < n := by
  rw [jsMod_eq_fract x n hx hn]
  calc n * Int.fract (x / n) < n * 1 := (mul_lt_mul_left hn).mpr (Int.fract_lt_one _)
    _ = n := mul_one n

theorem jsMod_of_nonneg (x n : ℚ) (hx : 0 ≤ x) (hn : 0 < n) :
    jsMod x n = x - n * ⌊x / n⌋ := by
  unfold jsMod jsTrunc
  rw [if_pos (div_nonneg hx hn.le)]

/-! ## Extrusion & Wall Builder (walls useEffect, lines 427–475)

For each segment the source reads `z = surfaceHeight * 0.3048` and
`paraZ = Math.max(0, parapetHeight * 0.3048)`, then for each index
`i < shell.length` takes the edge `(shell[i], shell[(i+1) % length])`,
skips it when both endpoints coincide, and otherwise pushes the wall quad
`[(a,z),(b,z),(b,0),(a,0),(a,z)]` and — when `paraZ > 0` — the parapet quad
`[(a,z+paraZ),(b,z+paraZ),(b,z),(a,z),(a,z+paraZ)]`. -/

/-- The wall quad of an edge `(a, b)` at roof height `z`
(lines 451–457 of `DesignEditor.tsx`). -/
def baseWallQuad (a b : Pt) (z : ℚ) : List Pt3 :=
  [⟨a.x, a.y, z⟩, ⟨b.x, b.y, z⟩, ⟨b.x, b.y, 0⟩, ⟨a.x, a.y, 0⟩, ⟨a.x, a.y, z⟩]

/-- The parapet quad of an edge `(a, b)`, stacked from `z` to `z + paraZ`
(lines 462–471). -/
def parapetWallQuad (a b : Pt) (z paraZ : ℚ) : List Pt3 :=
  [⟨a.x, a.y, z + paraZ⟩, ⟨b.x, b.y, z + paraZ⟩, ⟨b.x, b.y, z⟩,
   ⟨a.x, a.y, z⟩, ⟨a.x, a.y, z + paraZ⟩]

/-- The quads one loop iteration contributes for the edge `(a, b)`:
nothing for a degenerate edge (`a.x === b.x && a.y === b.y` is skipped by
`continue`), otherwise the wall quad followed by the parapet quad when
`paraZ > 0`. -/
def edgeWallQuads (a b : Pt) (z paraZ : ℚ) : List (List Pt3) :=
  if a = b then []
  else baseWallQuad a b z :: (if 0 < paraZ then [parapetWallQuad a b z paraZ] else [])

/-- The cyclic edge list `(shell[i], shell[(i+1) % length])` for
`i < length`, expressed with `List.rotate`. -/
def cyclicEdges (shell : RingCoords) : List (Pt × Pt) :=
  shell.zip (shell.rotate 1)

/-- All wall geometries the walls useEffect adds for one segment
(lines 434–474): nothing when the shell has fewer than two points, else
the per-edge quads over the cyclic edge list, with
`z = surfaceHeight * 0.3048` and `paraZ = max 0 (parapetHeight * 0.3048)`. -/
def wallsForSegment (shell : RingCoords) (surfaceFt parapetFt : ℚ) : List (List Pt3) :=
  if shell.length < 2 then []
  else
    (cyclicEdges shell).flatMap fun e =>
      edgeWallQuads e.1 e.2 (surfaceFt * ftToM) (max 0 (parapetFt * ftToM))

theorem edgeWallQuads_length (a b : Pt) (z paraZ : ℚ) :
    (edgeWallQuads a b z paraZ).length =
      (if a = b then 0 else 1) * (if 0 < paraZ then 2 else 1) := by
  unfold edgeWallQuads
  split_ifs <;> simp

theorem wall_flatMap_length (edges : List (Pt × Pt)) (z paraZ : ℚ) :
    (edges.flatMap fun e => edgeWallQuads e.1 e.2 z paraZ).length =
      (edges.filter fun e => decide (e.1 ≠ e.2)).length * (if 0 < paraZ then 2 else 1) := by
  induction edges with
  | nil => simp
  | cons e es ih =>
    rw [List.flatMap_cons, List.length_append, ih, edgeWallQuads_length]
    by_cases h : e.1 = e.2 <;> by_cases hp : 0 < paraZ <;>
      simp [List.filter_cons, h, hp] <;> ring

theorem mem_edgeWallQuads (q : List Pt3) (a b : Pt) (z paraZ : ℚ) :
    q ∈ edgeWallQuads a b z paraZ ↔
      a ≠ b ∧ (q = baseWallQuad a b z ∨ 0 < paraZ ∧ q = parapetWallQuad a b z paraZ) := by
  unfold edgeWallQuads
  by_cases h : a = b <;> by_cases hp : 0 < paraZ <;> simp [h, hp]

/-- C5: for every segment ring with at least two points, each
non-degenerate cyclic edge `(a,b)` (including the closing edge) yields
exactly one vertical quad with corners `(a,z),(b,z),(b,0),(a,0)`
(`z` = surfaceHeight feet→meters), and exactly when the clamped parapet
height `paraZ = max 0 (parapetHeight feet→meters)` is positive, one
additional quad per such edge from `z` to `z + paraZ`; degenerate edges
produce no quads.  The count equation makes the "exactly one/one
additional" exact, and the membership clauses pin down every quad's
corners. -/
theorem c5_wall_builder (shell : RingCoords) (surfaceFt parapetFt : ℚ)
    (hlen : 2 ≤ shell.length) :
    (wallsForSegment shell surfaceFt parapetFt).length =
        ((cyclicEdges shell).filter fun e => decide (e.1 ≠ e.2)).length *
          (if 0 < max 0 (parapetFt * ftToM) then 2 else 1)
    ∧ (∀ q ∈ wallsForSegment shell surfaceFt parapetFt,
        ∃ e ∈ cyclicEdges shell, e.1 ≠ e.2 ∧
          (q = baseWallQuad e.1 e.2 (surfaceFt * ftToM) ∨
            0 < max 0 (parapetFt * ftToM) ∧
              q = parapetWallQuad e.1 e.2 (surfaceFt * ftToM) (max 0 (parapetFt * ftToM))))
    ∧ (∀ e ∈ cyclicEdges shell, e.1 ≠ e.2 →
        baseWallQuad e.1 e.2 (surfaceFt * ftToM) ∈ wallsForSegment shell surfaceFt parapetFt ∧
          (0 < max 0 (parapetFt * ftToM) →
            parapetWallQuad e.1 e.2 (surfaceFt * ftToM) (max 0 (parapetFt * ftToM)) ∈
              wallsForSegment shell surfaceFt parapetFt)) := by
  have hnot : ¬ shell.length < 2 := not_lt.mpr hlen
  unfold wallsForSegment
  rw [if_neg hnot]
  refine ⟨wall_flatMap_length _ _ _, ?_, ?_⟩
  · intro q hq
    rw [List.mem_flatMap] at hq
    obtain ⟨e, he, hqe⟩ := hq
    rw [mem_edgeWallQuads] at hqe
    exact ⟨e, he, hqe.1, hqe.2⟩
  · intro e he hne
    constructor
    · rw [List.mem_flatMap]
      exact ⟨e, he, (mem_edgeWallQuads _ _ _ _ _).mpr ⟨hne, Or.inl rfl⟩⟩
    · intro hp
      rw [List.mem_flatMap]
      exact ⟨e, he, (mem_edgeWallQuads _ _ _ _ _).mpr ⟨hne, Or.inr ⟨hp, rfl⟩⟩⟩

/-- Witness for C5 at a concrete triangle with surface height 10 ft and
parapet 2 ft. -/
theorem c5_witness :
    (wallsForSegment [⟨0, 0⟩, ⟨1, 0⟩, ⟨0, 1⟩] 10 2).length =
      ((cyclicEdges [⟨0, 0⟩, ⟨1, 0⟩, ⟨0, 1⟩]).filter fun e => decide (e.1 ≠ e.2)).length *
        (if 0 < max 0 (2 * ftToM) then 2 else 1) :=
  (c5_wall_builder [⟨0, 0⟩, ⟨1, 0⟩, ⟨0, 1⟩] 10 2 (by decide)).1

/-! ## Segment deletion (handleDeleteSegment, lines 1150–1159)

The handler copies the current list, optimistically filters the deleted id
out, awaits the external delete, and on error restores the copied list. -/

/-- A field segment as held in the `fieldSegments` React state; only the
identity matters for the deletion claim, the remaining attributes are
carried opaquely. -/
structure Seg where
  id : ℕ
  payload : ℚ
deriving DecidableEq, Repr

/-- `handleDeleteSegment`: returns the optimistic intermediate list and the
final list, given whether the external `delete` call reported an error. -/
def handleDeleteSegment (segs : List Seg) (segmentId : ℕ) (deleteError : Bool) :
    List Seg × List Seg :=
  let optimistic := segs.filter fun s => decide (s.id ≠ segmentId)
  (optimistic, if deleteError then segs else optimistic)

/-- C9: deleting a segment first removes it optimistically from the local
list; if the external delete errors the list is restored exactly to its
pre-delete contents, while on success the segment stays removed and every
other segment is retained. -/
theorem c9_delete_rollback (segs : List Seg) (segmentId : ℕ) :
    (∀ b, (handleDeleteSegment segs segmentId b).1 =
        segs.filter fun s => decide (s.id ≠ segmentId))
    ∧ (handleDeleteSegment segs segmentId true).2 = segs
    ∧ (handleDeleteSegment segs segmentId false).2 =
        (segs.filter fun s => decide (s.id ≠ segmentId))
    ∧ (∀ s, s ∈ (handleDeleteSegment segs segmentId false).2 ↔
        s ∈ segs ∧ s.id ≠ segmentId) := by
  refine ⟨fun b => rfl, rfl, rfl, fun s => ?_⟩
  simp [handleDeleteSegment, List.mem_filter]

/-! ## Shadow Projector (shadows useEffect, lines 477–678)

Per instant the source reads the sun position inside try/catch (failure
leaves `sunAz = sunAlt = 0`), exits when `sunAlt <= 0`, computes
`segHeightM = (surfaceHeight + rackingHeight + parapetHeight) * 0.3048`,
exits when it is not finite or not positive, then derives

  `rawLen = segHeightM / Math.tan(sunAlt)`
  `segShadowLen = Math.max(0, Math.min(500, rawLen))`
  `sunBearingFromNorth = ((sunAz * 180 / Math.PI) + 180 + 360) % 360`
  `shadowBearing = (sunBearingFromNorth + 180) % 360`

and emits the base ring, the ring shifted by
`turf.destination(c, segShadowLen, shadowBearing)`, and one wall quad per
cyclic edge.  `Math.tan` and the radians→degrees conversion
`x * 180 / Math.PI` are abstracted as parameters `tan` and `radDeg`;
`turf.destination` as `dest` (point, meters, bearing → point). -/

/-- Line 545: `Math.max(0, Math.min(500, segHeightM / Math.tan(sunAlt)))`,
with `tanAlt` standing for `Math.tan(sunAlt)`. -/
def segShadowLen (segHeightM tanAlt : ℚ) : ℚ :=
  max 0 (min 500 (segHeightM / tanAlt))

/-- Line 546: `((sunAz * 180 / Math.PI) + 180 + 360) % 360`, with `azDeg`
standing for `sunAz * 180 / Math.PI`. -/
def sunBearingFromNorth (azDeg : ℚ) : ℚ := jsMod (azDeg + 180 + 360) 360

/-- Line 547: `(sunBearingFromNorth + 180) % 360`. -/
def shadowBearing (azDeg : ℚ) : ℚ := jsMod (sunBearingFromNorth azDeg + 180) 360

/-- Lines 530–535 / 581–587: the sun lookup result, defaulting azimuth and
altitude to 0 when `SunCalc.getPosition` throws (`none`). -/
def sunAzAlt (sp : Option (ℚ × ℚ)) : ℚ × ℚ := sp.getD (0, 0)

/-- Line 551/559: append the first point when the ring is not closed
(component-wise comparison of first and last point). -/
def closeRing (r : RingCoords) : RingCoords :=
  match r.head?, r.getLast? with
  | some h, some l => if h = l then r else r ++ [h]
  | _, _ => r

/-- Lines 563–573 / 615–631: one quad `[a, b, b', a', a]` per cyclic edge,
connecting the unshifted edge to its shifted counterpart. -/
def wallShadowQuads (shell shifted : RingCoords) : List RingCoords :=
  ((shell.zip (shell.rotate 1)).zip (shifted.zip (shifted.rotate 1))).map
    fun p => [p.1.1, p.1.2, p.2.2, p.2.1, p.1.1]

/-- `buildTurfPolysAtTime` (lines 525–575): the list of turf polygons (as
their single rings) built for one sample instant — base polygon, roof
polygon, then the wall quads; `[]` when the sun is down or the combined
height is not positive.  (`!isFinite(segHeightM)` is identically false on
ℚ, so only the `segHeightM <= 0` part of that guard is representable.) -/
def buildTurfPolysAtTime (dest : Pt → ℚ → ℚ → Pt) (tan radDeg : ℚ → ℚ)
    (sp : Option (ℚ × ℚ)) (shell : RingCoords)
    (surfaceFt rackingFt parapetFt : ℚ) : List RingCoords :=
  let sunAz := (sunAzAlt sp).1
  let sunAlt := (sunAzAlt sp).2
  if sunAlt ≤ 0 then []
  else
    let segHeightM := (surfaceFt + rackingFt + parapetFt) * ftToM
    if segHeightM ≤ 0 then []
    else
      let len := segShadowLen segHeightM (tan sunAlt)
      let brg := shadowBearing (radDeg sunAz)
      let shifted := shell.map fun c => dest c len brg
      closeRing shell :: closeRing shifted :: wallShadowQuads shell shifted

/-- `drawAtTime` (lines 577–632): the rings of the maptalks polygons added
to the shadows layer for one instant — base shell, shifted shell, then the
explicitly closed wall quads; nothing when the sun is down or the combined
height is not positive. -/
def drawAtTime (dest : Pt → ℚ → ℚ → Pt) (tan radDeg : ℚ → ℚ)
    (sp : Option (ℚ × ℚ)) (shell : RingCoords)
    (surfaceFt rackingFt parapetFt : ℚ) : List RingCoords :=
  let sunAz := (sunAzAlt sp).1
  let sunAlt := (sunAzAlt sp).2
  if sunAlt ≤ 0 then []
  else
    let segHeightM := (surfaceFt + rackingFt + parapetFt) * ftToM
    if segHeightM ≤ 0 then []
    else
      let len := segShadowLen segHeightM (tan sunAlt)
      let brg := shadowBearing (radDeg sunAz)
      let shifted := shell.map fun c => dest c len brg
      shell :: shifted :: wallShadowQuads shell shifted

/-- C1: for a segment and instant with sun altitude above the horizon
(`0 < alt`, below the zenith so `0 < tan alt`) and positive finite combined
height `h = (surfaceHeight + rackingHeight + parapetHeight) * 0.3048`, the
shadow translation distance is `h / tan alt` clamped to `[0, 500]` (hence
equal to `h` at 45° altitude where `tan alt = 1`, whenever `h ≤ 500`), and
the shadow bearing is the sun azimuth converted to a compass bearing from
north then rotated 180°, taken modulo 360 (witnessed by the integer `k`
with the result in `[0, 360)`); `drawAtTime` translates every shell vertex
by exactly that distance along exactly that bearing.  The hypothesis
`-540 ≤ radDeg az` holds for every SunCalc azimuth (which lies in
`(-π, π]` radians, i.e. `(-180, 180]` degrees). -/
theorem c1_shadow_length_and_bearing (dest : Pt → ℚ → ℚ → Pt) (tan radDeg : ℚ → ℚ)
    (az alt surfaceFt rackingFt parapetFt : ℚ) (shell : RingCoords)
    (halt : 0 < alt) (htan : 0 < tan alt)
    (hh : 0 < (surfaceFt + rackingFt + parapetFt) * ftToM)
    (haz : -540 ≤ radDeg az) :
    segShadowLen ((surfaceFt + rackingFt + parapetFt) * ftToM) (tan alt) =
        min 500 (max 0 (((surfaceFt + rackingFt + parapetFt) * ftToM) / tan alt))
    ∧ 0 ≤ segShadowLen ((surfaceFt + rackingFt + parapetFt) * ftToM) (tan alt)
    ∧ segShadowLen ((surfaceFt + rackingFt + parapetFt) * ftToM) (tan alt) ≤ 500
    ∧ (tan alt = 1 → (surfaceFt + rackingFt + parapetFt) * ftToM ≤ 500 →
        segShadowLen ((surfaceFt + rackingFt + parapetFt) * ftToM) (tan alt) =
          (surfaceFt + rackingFt + parapetFt) * ftToM)
    ∧ (∃ k : ℤ, shadowBearing (radDeg az) =
        sunBearingFromNorth (radDeg az) + 180 - 360 * k)
    ∧ 0 ≤ shadowBearing (radDeg az) ∧ shadowBearing (radDeg az) < 360
    ∧ drawAtTime dest tan radDeg (some (az, alt)) shell surfaceFt rackingFt parapetFt =
        shell ::
          (shell.map fun c =>
            dest c (segShadowLen ((surfaceFt + rackingFt + parapetFt) * ftToM) (tan alt))
              (shadowBearing (radDeg az))) ::
          wallShadowQuads shell
            (shell.map fun c =>
              dest c (segShadowLen ((surfaceFt + rackingFt + parapetFt) * ftToM) (tan alt))
                (shadowBearing (radDeg az))) := by
  have hsbn : 0 ≤ sunBearingFromNorth (radDeg az) := by
    unfold sunBearingFromNorth
    exact jsMod_nonneg _ 360 (by linarith) (by norm_num)
  refine ⟨?_, ?_, ?_, ?_, ?_, ?_, ?_, ?_⟩
  · unfold segShadowLen
    rcases le_total (((surfaceFt + rackingFt + parapetFt) * ftToM) / tan alt) 0 with h | h <;>
      rcases le_total (((surfaceFt + rackingFt + parapetFt) * ftToM) / tan alt) 500 with h2 | h2 <;>
      simp [max_def, min_def] <;> split_ifs <;> linarith
  · exact le_max_left _ _
  · unfold segShadowLen
    rcases le_total (min 500 (((surfaceFt + rackingFt + parapetFt) * ftToM) / tan alt)) 0 with h | h
    · simpa [max_def] using le_trans (max_le le_rfl h) (by norm_num)
    · calc max 0 (min 500 (((surfaceFt + rackingFt + parapetFt) * ftToM) / tan alt)) =
            min 500 (((surfaceFt + rackingFt + parapetFt) * ftToM) / tan alt) :=
            max_eq_right h
        _ ≤ 500 := min_le_left _ _
  · intro h1 hle
    unfold segShadowLen
    rw [h1, div_one]
    rw [min_eq_right hle, max_eq_right hh.le]
  · exact ⟨jsTrunc ((sunBearingFromNorth (radDeg az) + 180) / 360), by
      unfold shadowBearing jsMod; ring⟩
  · exact jsMod_nonneg _ 360 (by linarith) (by norm_num)
  · exact jsMod_lt _ 360 (by linarith) (by norm_num)
  · unfold drawAtTime sunAzAlt
    simp only [Option.getD_some]
    rw [if_neg (not_le.mpr halt), if_neg (not_le.mpr hh)]

/-- Witness for C1: a unit-height (1 ft) obstruction at 45° altitude
(`tan = 1`), azimuth 0. -/
theorem c1_witness :
    0 ≤ segShadowLen ((1 + 0 + 0) * ftToM) ((fun _ => (1 : ℚ)) (1 : ℚ)) :=
  (c1_shadow_length_and_bearing (fun p d _ => ⟨p.x + d, p.y⟩) (fun _ => 1) (fun x => x)
    0 1 1 0 0 [⟨0, 0⟩, ⟨1, 0⟩, ⟨0, 1⟩]
    (by norm_num) (by norm_num) (by norm_num [ftToM]) (by norm_num)).2.1

/-- C6: if the sun-position lookup fails (azimuth and altitude default
to 0) or the reported altitude is at most 0, neither the per-instant turf
polygon builder nor the per-instant drawing routine produces any shadow
polygon, and (the functions being total) no error is raised; a whole
sampling window of such instants contributes nothing to the interval
aggregate input. -/
theorem c6_no_shadow_sun_down (dest : Pt → ℚ → ℚ → Pt) (tan radDeg : ℚ → ℚ)
    (sp : Option (ℚ × ℚ)) (shell : RingCoords) (surfaceFt rackingFt parapetFt : ℚ) :
    (sp = none →
      buildTurfPolysAtTime dest tan radDeg sp shell surfaceFt rackingFt parapetFt = [] ∧
        drawAtTime dest tan radDeg sp shell surfaceFt rackingFt parapetFt = [])
    ∧ (∀ az alt, sp = some (az, alt) → alt ≤ 0 →
      buildTurfPolysAtTime dest tan radDeg sp shell surfaceFt rackingFt parapetFt = [] ∧
        drawAtTime dest tan radDeg sp shell surfaceFt rackingFt parapetFt = []) := by
  constructor
  · rintro rfl
    constructor
    · unfold buildTurfPolysAtTime sunAzAlt
      simp
    · unfold drawAtTime sunAzAlt
      simp
  · rintro az alt rfl hle
    constructor
    · unfold buildTurfPolysAtTime sunAzAlt
      simp [hle]
    · unfold drawAtTime sunAzAlt
      simp [hle]

/-- Witness for C6 at a concrete failed sun lookup. -/
theorem c6_witness :
    buildTurfPolysAtTime (fun p _ _ => p) (fun x => x) (fun x => x) none
        [⟨0, 0⟩, ⟨1, 0⟩, ⟨0, 1⟩] 3 1 1 = [] ∧
      drawAtTime (fun p _ _ => p) (fun x => x) (fun x => x) none
        [⟨0, 0⟩, ⟨1, 0⟩, ⟨0, 1⟩] 3 1 1 = [] :=
  (c6_no_shadow_sun_down (fun p _ _ => p) (fun x => x) (fun x => x) none
    [⟨0, 0⟩, ⟨1, 0⟩, ⟨0, 1⟩] 3 1 1).1 rfl

/-- C10: when the combined obstruction height
`(surfaceHeight + rackingHeight + parapetHeight) * 0.3048` is not positive,
no shadow polygon at all (base, roof or wall) is produced at any instant,
whatever the sun position — including sun altitude above the horizon.
(The companion `!isFinite(segHeightM)` part of the source guard concerns
only NaN/Infinity inputs, which have no rational representative.) -/
theorem c10_no_shadow_nonpositive_height (dest : Pt → ℚ → ℚ → Pt) (tan radDeg : ℚ → ℚ)
    (sp : Option (ℚ × ℚ)) (shell : RingCoords) (surfaceFt rackingFt parapetFt : ℚ)
    (hh : (surfaceFt + rackingFt + parapetFt) * ftToM ≤ 0) :
    buildTurfPolysAtTime dest tan radDeg sp shell surfaceFt rackingFt parapetFt = [] ∧
      drawAtTime dest tan radDeg sp shell surfaceFt rackingFt parapetFt = [] := by
  constructor
  · unfold buildTurfPolysAtTime
    by_cases h : (sunAzAlt sp).2 ≤ 0 <;> simp [h, hh]
  · unfold drawAtTime
    by_cases h : (sunAzAlt sp).2 ≤ 0 <;> simp [h, hh]

/-- Witness for C10: zero heights, sun well above the horizon. -/
theorem c10_witness :
    buildTurfPolysAtTime (fun p _ _ => p) (fun x => x) (fun x => x) (some (0, 1))
        [⟨0, 0⟩, ⟨1, 0⟩, ⟨0, 1⟩] 0 0 0 = [] ∧
      drawAtTime (fun p _ _ => p) (fun x => x) (fun x => x) (some (0, 1))
        [⟨0, 0⟩, ⟨1, 0⟩, ⟨0, 1⟩] 0 0 0 = [] :=
  c10_no_shadow_nonpositive_height (fun p _ _ => p) (fun x => x) (fun x => x) (some (0, 1))
    [⟨0, 0⟩, ⟨1, 0⟩, ⟨0, 1⟩] 0 0 0 (by norm_num [ftToM])

/-! ## Interval aggregation (lines 634–674)

The source parses start/end times to minutes, swaps them if inverted,
iterates `for (m = minutesStart; m <= minutesEnd; m += STEP)` with
`STEP = 1`, builds the full polygon set at each sample and folds
`agg = agg ? turf.union(agg, p) : p` inside try/catch, per polygon, so a
throwing union step leaves `agg` unchanged. -/

/-- The sampled minutes (lines 637–645): swap if inverted, then every
minute from start to end inclusive. -/
def sampleMinutes (s e : ℕ) : List ℕ :=
  let a := if e < s then e else s
  let b := if e < s then s else e
  (List.range (b - a + 1)).map (a + ·)

/-- One `agg = agg ? turf.union(agg, p) : p` step wrapped in try/catch
(lines 647–651): the first polygon seeds the aggregate; a failing union
(`none`) is swallowed, keeping the previous aggregate.  `G` is the type of
turf geometry values (Polygon or MultiPolygon features), abstract here. -/
def aggStep {G : Type} (union : G → G → Option G) (acc : Option G) (p : G) : Option G :=
  match acc with
  | none => some p
  | some a =>
    match union a p with
    | some u => some u
    | none => some a

/-- The aggregation fold over a polygon list, starting from `agg = null`. -/
def aggregateShadow {G : Type} (union : G → G → Option G) (polys : List G) : Option G :=
  polys.foldl (aggStep union) none

/-- The straight union chain over a list succeeds from a given
accumulator: every `turf.union` call on the way returns a value. -/
def allStepsSucceed {G : Type} (union : G → G → Option G) : Option G → List G → Prop
  | _, [] => True
  | none, p :: ps => allStepsSucceed union (some p) ps
  | some a, p :: ps => ∃ u, union a p = some u ∧ allStepsSucceed union (some u) ps

/-- The full polygon-set input of the aggregation loop: for each sampled
minute, the polygons of `buildTurfPolysAtTime` at that minute
(`sunAt m` abstracts the SunCalc lookup at minute `m` of the analysis
date). -/
def segmentShadowPolys (dest : Pt → ℚ → ℚ → Pt) (tan radDeg : ℚ → ℚ)
    (sunAt : ℕ → Option (ℚ × ℚ)) (shell : RingCoords)
    (surfaceFt rackingFt parapetFt : ℚ) (s e : ℕ) : List RingCoords :=
  (sampleMinutes s e).flatMap fun m =>
    buildTurfPolysAtTime dest tan radDeg (sunAt m) shell surfaceFt rackingFt parapetFt

/-- The aggregate shadow of a segment over its time window: the swallowing
fold over the whole sampled polygon list, each ring first embedded into the
abstract turf-feature type `G`. -/
def segmentAggregate {G : Type} (toFeature : RingCoords → G) (union : G → G → Option G)
    (dest : Pt → ℚ → ℚ → Pt) (tan radDeg : ℚ → ℚ) (sunAt : ℕ → Option (ℚ × ℚ))
    (shell : RingCoords) (surfaceFt rackingFt parapetFt : ℚ) (s e : ℕ) : Option G :=
  aggregateShadow union
    ((segmentShadowPolys dest tan radDeg sunAt shell surfaceFt rackingFt parapetFt s e).map
      toFeature)

theorem aggregation_skips_failures {G : Type} (union : G → G → Option G) :
    ∀ (polys : List G) (acc : Option G),
      ∃ kept : List G, kept.Sublist polys ∧ allStepsSucceed union acc kept ∧
        polys.foldl (aggStep union) acc = kept.foldl (aggStep union) acc := by
  intro polys
  induction polys with
  | nil =>
    intro acc
    refine ⟨[], List.Sublist.refl _, ?_, rfl⟩
    cases acc <;> trivial
  | cons p ps ih =>
    intro acc
    match acc with
    | none =>
      obtain ⟨kept, hsub, hsucc, heq⟩ := ih (some p)
      exact ⟨p :: kept, List.Sublist.cons₂ p hsub, hsucc, heq⟩
    | some a =>
      cases hu : union a p with
      | some u =>
        obtain ⟨kept, hsub, hsucc, heq⟩ := ih (some u)
        refine ⟨p :: kept, List.Sublist.cons₂ p hsub, ⟨u, hu, hsucc⟩, ?_⟩
        simpa only [List.foldl_cons, aggStep, hu] using heq
      | none =>
        obtain ⟨kept, hsub, hsucc, heq⟩ := ih (some a)
        refine ⟨kept, List.Sublist.cons _ hsub, hsucc, ?_⟩
        simpa only [List.foldl_cons, aggStep, hu] using heq

/-- C3: the aggregate shadow samples the window at 1-minute resolution
from `min s e` to `max s e` inclusive (the window is swapped when
inverted); its input contains exactly the polygons of the full per-sample
polygon set over those minutes; and the swallowing fold equals the
failure-free union chain over some sublist of the input — the polygons
whose union steps succeeded — so union failures only drop their own
polygon. -/
theorem c3_interval_aggregation {G : Type} (toFeature : RingCoords → G)
    (union : G → G → Option G) (dest : Pt → ℚ → ℚ → Pt) (tan radDeg : ℚ → ℚ)
    (sunAt : ℕ → Option (ℚ × ℚ)) (shell : RingCoords)
    (surfaceFt rackingFt parapetFt : ℚ) (s e : ℕ) :
    sampleMinutes s e = (List.range (max s e - min s e + 1)).map (min s e + ·)
    ∧ (∀ m, m ∈ sampleMinutes s e ↔ min s e ≤ m ∧ m ≤ max s e)
    ∧ (∀ p, p ∈ segmentShadowPolys dest tan radDeg sunAt shell
          surfaceFt rackingFt parapetFt s e ↔
        ∃ m, (min s e ≤ m ∧ m ≤ max s e) ∧
          p ∈ buildTurfPolysAtTime dest tan radDeg (sunAt m) shell
            surfaceFt rackingFt parapetFt)
    ∧ (∃ kept : List G,
        kept.Sublist
          ((segmentShadowPolys dest tan radDeg sunAt shell
              surfaceFt rackingFt parapetFt s e).map toFeature) ∧
        allStepsSucceed union none kept ∧
        segmentAggregate toFeature union dest tan radDeg sunAt shell
            surfaceFt rackingFt parapetFt s e =
          aggregateShadow union kept) := by
  have hsample : sampleMinutes s e =
      (List.range (max s e - min s e + 1)).map (min s e + ·) := by
    unfold sampleMinutes
    rcases Nat.lt_or_ge e s with h | h
    · rw [if_pos h, if_pos h, Nat.min_eq_right h.le, Nat.max_eq_left h.le]
    · rw [if_neg (not_lt.mpr h), if_neg (not_lt.mpr h),
        Nat.min_eq_left h, Nat.max_eq_right h]
  have hmem : ∀ m, m ∈ sampleMinutes s e ↔ min s e ≤ m ∧ m ≤ max s e := by
    intro m
    rw [hsample]
    simp only [List.mem_map, List.mem_range]
    constructor
    · rintro ⟨i, hi, rfl⟩
      omega
    · rintro ⟨h1, h2⟩
      exact ⟨m - min s e, by omega, by omega⟩
  refine ⟨hsample, hmem, ?_, ?_⟩
  · intro p
    unfold segmentShadowPolys
    rw [List.mem_flatMap]
    constructor
    · rintro ⟨m, hm, hp⟩
      exact ⟨m, (hmem m).mp hm, hp⟩
    · rintro ⟨m, hm, hp⟩
      exact ⟨m, (hmem m).mpr hm, hp⟩
  · exact aggregation_skips_failures union _ none

/-! ## Setback inset (lines 1024–1043) and module layout packer (lines 1055–1142)

The turf primitives the packer composes are collected in a `Turf` record:
`buffer` may throw or return null (`none`), and a MultiPolygon result
carries the coordinate sets of its pieces; `within` is
`turf.booleanWithin` with a throwing call counting as not-contained (the
call site wraps it in try/catch and drops the module either way). -/

/-- Result of `turf.buffer`: a single polygon, or a MultiPolygon as the
list of its pieces' ring lists. -/
inductive BufResult where
  | single (p : TPoly)
  | multi (pieces : List (List RingCoords))
deriving DecidableEq, Repr

/-- The abstracted turf.js primitives used by the packer. -/
structure Turf where
  dest : Pt → ℚ → ℚ → Pt
  dist : Pt → Pt → ℚ
  bearingF : Pt → Pt → ℚ
  cosDeg : ℚ → ℚ
  centroid : TPoly → Pt
  area : TPoly → ℚ
  buffer : TPoly → ℚ → Option BufResult
  within : TPoly → TPoly → Bool

/-- Lines 1032–1039: scan the MultiPolygon pieces keeping the first piece
of maximal `turf.area` (strict `a > maxA` starting from `-Infinity`, so
the first piece always replaces the initial null). -/
def largestPiece (area : TPoly → ℚ) (pieces : List (List RingCoords)) : Option TPoly :=
  (pieces.foldl
    (fun acc coords =>
      match acc with
      | none => some (area ⟨coords⟩, (⟨coords⟩ : TPoly))
      | some (m, b) => if m < area ⟨coords⟩ then some (area ⟨coords⟩, ⟨coords⟩) else some (m, b))
    none).map Prod.snd

/-- The setback inset IIFE (lines 1025–1043): convert `setback` feet to
meters, return the original polygon when the result is not positive
(`!isFinite(sb)` has no rational instance), otherwise negatively buffer by
`sb`; a throwing or null buffer falls back to the original polygon, and a
MultiPolygon keeps only its largest-area piece (falling back to the
original when there are no pieces). -/
def insetRegion (t : Turf) (turfPoly : TPoly) (setbackFt : ℚ) : TPoly :=
  let sb := setbackFt * ftToM
  if sb ≤ 0 then turfPoly
  else
    match t.buffer turfPoly (-sb) with
    | none => turfPoly
    | some (.single p) => p
    | some (.multi pieces) => (largestPiece t.area pieces).getD turfPoly

theorem insetRegion_of_nonpos_setback (t : Turf) (turfPoly : TPoly) (setbackFt : ℚ)
    (hsb : setbackFt ≤ 0) : insetRegion t turfPoly setbackFt = turfPoly := by
  have hftm : (0 : ℚ) < ftToM := by norm_num [ftToM]
  unfold insetRegion
  rw [if_pos (mul_nonpos_of_nonpos_of_nonneg hsb hftm.le)]

theorem largestPiece_go (area : TPoly → ℚ) :
    ∀ (pieces : List (List RingCoords)) (m : ℚ) (b : TPoly), m = area b →
      ∃ m' b',
        (pieces.foldl
          (fun acc coords =>
            match acc with
            | none => some (area ⟨coords⟩, (⟨coords⟩ : TPoly))
            | some (mm, bb) =>
                if mm < area ⟨coords⟩ then some (area ⟨coords⟩, ⟨coords⟩) else some (mm, bb))
          (some (m, b))) = some (m', b') ∧
        m' = area b' ∧ (b' = b ∨ ∃ c ∈ pieces, b' = TPoly.mk c) ∧ m ≤ m' ∧
        ∀ c ∈ pieces, area ⟨c⟩ ≤ m' := by
  intro pieces
  induction pieces with
  | nil =>
    intro m b hm
    exact ⟨m, b, rfl, hm, Or.inl rfl, le_rfl, by simp⟩
  | cons c cs ih =>
    intro m b hm
    by_cases hlt : m < area ⟨c⟩
    · obtain ⟨m', b', hfold, hm', hmem, hle, hall⟩ := ih (area ⟨c⟩) ⟨c⟩ rfl
      refine ⟨m', b', ?_, hm', ?_, le_trans hlt.le hle, ?_⟩
      · simpa [List.foldl_cons, if_pos hlt] using hfold
      · rcases hmem with h | ⟨c', hc', h⟩
        · exact Or.inr ⟨c, List.mem_cons_self c cs, h⟩
        · exact Or.inr ⟨c', List.mem_cons_of_mem c hc', h⟩
      · intro c' hc'
        rcases List.mem_cons.mp hc' with rfl | h
        · exact le_trans le_rfl hle
        · exact hall c' h
    · obtain ⟨m', b', hfold, hm', hmem, hle, hall⟩ := ih m b hm
      refine ⟨m', b', ?_, hm', ?_, hle, ?_⟩
      · simpa [List.foldl_cons, if_neg hlt] using hfold
      · rcases hmem with h | ⟨c', hc', h⟩
        · exact Or.inl h
        · exact Or.inr ⟨c', List.mem_cons_of_mem c hc', h⟩
      · intro c' hc'
        rcases List.mem_cons.mp hc' with rfl | h
        · exact le_trans (not_lt.mp hlt) hle
        · exact hall c' h

theorem largestPiece_spec (area : TPoly → ℚ) (c : List RingCoords)
    (cs : List (List RingCoords)) :
    ∃ c' ∈ c :: cs, largestPiece area (c :: cs) = some ⟨c'⟩ ∧
      ∀ c'' ∈ c :: cs, area ⟨c''⟩ ≤ area ⟨c'⟩ := by
  obtain ⟨m', b', hfold, hm', hmem, hle, hall⟩ := largestPiece_go area cs (area ⟨c⟩) ⟨c⟩ rfl
  have hb' : ∃ cc ∈ c :: cs, b' = TPoly.mk cc := by
    rcases hmem with h | ⟨c', hc', h⟩
    · exact ⟨c, List.mem_cons_self c cs, h⟩
    · exact ⟨c', List.mem_cons_of_mem c hc', h⟩
  obtain ⟨cc, hcc, rfl⟩ := hb'
  refine ⟨cc, hcc, ?_, ?_⟩
  · unfold largestPiece
    rw [List.foldl_cons]
    simpa using congrArg (Option.map Prod.snd) hfold
  · intro c'' hc''
    rw [← hm']
    rcases List.mem_cons.mp hc'' with rfl | h
    · exact hle
    · exact hall c'' h

/-- C4: the packer's buildable region is the segment ring negatively
buffered by `setback` feet converted to meters; a MultiPolygon result
keeps only a largest-area piece (a member of the pieces whose area bounds
every piece's area); and a non-positive setback, a throwing or null
buffer, or an empty MultiPolygon all fall back to the unmodified original
ring. -/
theorem c4_inset_region (t : Turf) (turfPoly : TPoly) (setbackFt : ℚ) :
    (setbackFt ≤ 0 → insetRegion t turfPoly setbackFt = turfPoly)
    ∧ (0 < setbackFt →
        t.buffer turfPoly (-(setbackFt * ftToM)) = none →
          insetRegion t turfPoly setbackFt = turfPoly)
    ∧ (∀ p, 0 < setbackFt →
        t.buffer turfPoly (-(setbackFt * ftToM)) = some (.single p) →
          insetRegion t turfPoly setbackFt = p)
    ∧ (0 < setbackFt →
        t.buffer turfPoly (-(setbackFt * ftToM)) = some (.multi []) →
          insetRegion t turfPoly setbackFt = turfPoly)
    ∧ (∀ c cs, 0 < setbackFt →
        t.buffer turfPoly (-(setbackFt * ftToM)) = some (.multi (c :: cs)) →
          ∃ c' ∈ c :: cs, insetRegion t turfPoly setbackFt = ⟨c'⟩ ∧
            ∀ c'' ∈ c :: cs, t.area ⟨c''⟩ ≤ t.area ⟨c'⟩) := by
  have hftm : (0 : ℚ) < ftToM := by norm_num [ftToM]
  refine ⟨?_, ?_, ?_, ?_, ?_⟩
  · exact insetRegion_of_nonpos_setback t turfPoly setbackFt
  · intro hsb hbuf
    unfold insetRegion
    rw [if_neg (not_le.mpr (mul_pos hsb hftm)), hbuf]
  · intro p hsb hbuf
    unfold insetRegion
    rw [if_neg (not_le.mpr (mul_pos hsb hftm)), hbuf]
  · intro hsb hbuf
    unfold insetRegion
    rw [if_neg (not_le.mpr (mul_pos hsb hftm)), hbuf]
    rfl
  · intro c cs hsb hbuf
    obtain ⟨c', hc', hlp, hall⟩ := largestPiece_spec t.area c cs
    refine ⟨c', hc', ?_, hall⟩
    unfold insetRegion
    rw [if_neg (not_le.mpr (mul_pos hsb hftm)), hbuf]
    show (largestPiece t.area (c :: cs)).getD turfPoly = (⟨c'⟩ : TPoly)
    rw [hlp]
    rfl

/-- Witness for C4: a concrete buffer producing a two-piece MultiPolygon
whose larger piece is selected. -/
theorem c4_witness :
    ∃ c' ∈ [[[(⟨0, 0⟩ : Pt), ⟨2, 0⟩, ⟨0, 2⟩, ⟨0, 0⟩]], [[(⟨5, 5⟩ : Pt), ⟨6, 5⟩, ⟨5, 6⟩, ⟨5, 5⟩]]],
      insetRegion
        { dest := fun p _ _ => p, dist := fun _ _ => 0, bearingF := fun _ _ => 0,
          cosDeg := fun _ => 1, centroid := fun _ => ⟨0, 0⟩,
          area := fun p => p.rings.length,
          buffer := fun _ _ => some (.multi
            [[[(⟨0, 0⟩ : Pt), ⟨2, 0⟩, ⟨0, 2⟩, ⟨0, 0⟩]], [[(⟨5, 5⟩ : Pt), ⟨6, 5⟩, ⟨5, 6⟩, ⟨5, 5⟩]]]),
          within := fun _ _ => true }
        ⟨[[⟨0, 0⟩, ⟨10, 0⟩, ⟨0, 10⟩, ⟨0, 0⟩]]⟩ 4 = ⟨c'⟩ ∧
      ∀ c'' ∈ [[[(⟨0, 0⟩ : Pt), ⟨2, 0⟩, ⟨0, 2⟩, ⟨0, 0⟩]], [[(⟨5, 5⟩ : Pt), ⟨6, 5⟩, ⟨5, 6⟩, ⟨5, 5⟩]]],
        (fun (p : TPoly) => (p.rings.length : ℚ)) ⟨c''⟩ ≤
          (fun (p : TPoly) => (p.rings.length : ℚ)) ⟨c'⟩ :=
  (c4_inset_region
    { dest := fun p _ _ => p, dist := fun _ _ => 0, bearingF := fun _ _ => 0,
      cosDeg := fun _ => 1, centroid := fun _ => ⟨0, 0⟩,
      area := fun p => p.rings.length,
      buffer := fun _ _ => some (.multi
        [[[(⟨0, 0⟩ : Pt), ⟨2, 0⟩, ⟨0, 2⟩, ⟨0, 0⟩]], [[(⟨5, 5⟩ : Pt), ⟨6, 5⟩, ⟨5, 6⟩, ⟨5, 5⟩]]]),
      within := fun _ _ => true }
    ⟨[[⟨0, 0⟩, ⟨10, 0⟩, ⟨0, 10⟩, ⟨0, 0⟩]]⟩ 4).2.2.2.2
    [[(⟨0, 0⟩ : Pt), ⟨2, 0⟩, ⟨0, 2⟩, ⟨0, 0⟩]] [[[(⟨5, 5⟩ : Pt), ⟨6, 5⟩, ⟨5, 6⟩, ⟨5, 5⟩]]]
    (by norm_num) rfl

/-- The `segment.alignment` values (the source defaults a falsy value to
center before the switch). -/
inductive Alignment where
  | left
  | center
  | right
  | justify
deriving DecidableEq, Repr

/-- Lines 1105–1109: the starting X-axis margin.  `left` takes the `else`
fall-through of the initial `let marginX = 0`. -/
def marginX (align : Alignment) (leftoverX stepX : ℚ) : ℚ :=
  match align with
  | .center => jsMod leftoverX stepX / 2
  | .right => jsMod leftoverX stepX
  | .justify => jsMod leftoverX stepX / 2
  | .left => 0

/-- Iteration count of `for (v = start; v <= bound; v += step)` over exact
rationals: `⌊(bound - start) / step⌋ + 1` when the loop is entered.  (A
non-positive `step` would not terminate in the source; the theorems never
rely on that branch.) -/
def loopCount (start bound step : ℚ) : ℕ :=
  if 0 < step ∧ start ≤ bound then (⌊(bound - start) / step⌋ + 1).toNat else 0

/-- Minimum of a projection list (source initialises with `Infinity` and
folds, so the result is the least element; the empty list — a degenerate
ring that would produce NaN coordinates in the source — is given 0). -/
def listMin (l : List ℚ) : ℚ :=
  match l with
  | [] => 0
  | v :: vs => vs.foldl min v

/-- Maximum of a projection list (source initialises with `-Infinity`). -/
def listMax (l : List ℚ) : ℚ :=
  match l with
  | [] => 0
  | v :: vs => vs.foldl max v

/-- Line 1100: `shift(pt, dist, brg)` — destination by `|dist|` along
`brg`, or along the reversed bearing for a negative distance. -/
def shiftPt (dest : Pt → ℚ → ℚ → Pt) (pt : Pt) (d brg : ℚ) : Pt :=
  dest pt |d| (if 0 ≤ d then brg else jsMod (brg + 180) 360)

/-- `buildRotatedRect` (lines 1002–1016): the oriented module rectangle
around `center` with half-extents `halfW`, `halfH` along the local
bearings, as the closed ring `[tl, tr, br, bl, tl]`. -/
def buildRotatedRect (dest : Pt → ℚ → ℚ → Pt) (center : Pt)
    (halfW halfH bearingX bearingY : ℚ) : TPoly :=
  let minusX := dest center halfW (jsMod (bearingX + 180) 360)
  let plusX := dest center halfW bearingX
  let tl := dest minusX halfH bearingY
  let bl := dest minusX halfH (jsMod (bearingY + 180) 360)
  let tr := dest plusX halfH bearingY
  let br := dest plusX halfH (jsMod (bearingY + 180) 360)
  ⟨[[tl, tr, br, bl, tl]]⟩

/-- The per-segment packing inputs (lines 1061–1073), in the raw units the
source reads them: module dimensions in meters from the dimension cache,
spacings in feet, frame sizes as unvalidated numbers, azimuth in degrees. -/
structure PackParams where
  setbackFt : ℚ
  dimWidth : ℚ
  dimHeight : ℚ
  portrait : Bool
  moduleSpacingFt : ℚ
  frameSpacingFt : ℚ
  rowSpacingFt : ℚ
  frameSizeWide : ℚ
  frameSizeUp : ℚ
  moduleAzimuth : ℚ
  alignment : Alignment
deriving DecidableEq, Repr

/-- The candidate module rectangles the packing loops generate
(lines 1061–1129), before the containment filter: derived frame geometry,
oriented extents of the inset region's outer ring projected on the local
bearings, the alignment margin, then the y/x frame tiling and the
per-frame r/c module tiling. -/
def candidateRects (t : Turf) (pp : PackParams) (inset : TPoly) : List TPoly :=
  let moduleW := max 0 (if pp.portrait then pp.dimHeight else pp.dimWidth)
  let moduleH := max 0 (if pp.portrait then pp.dimWidth else pp.dimHeight)
  let msFt := if 0 < pp.moduleSpacingFt then pp.moduleSpacingFt else 1 / 50
  let moduleSpacing := max 0 (msFt * ftToM)
  let frameSpacing := max 0 (pp.frameSpacingFt * ftToM)
  let rowSpacing := max 0 (pp.rowSpacingFt * ftToM)
  let sizeWide : ℤ := max 1 ⌊pp.frameSizeWide⌋
  let sizeUp : ℤ := max 1 ⌊pp.frameSizeUp⌋
  let moduleAz := max 0 (jsMod (jsMod pp.moduleAzimuth 360 + 360) 360)
  let bearingY := moduleAz
  let bearingX := jsMod (moduleAz + 90) 360
  let frameW := (sizeWide : ℚ) * moduleW + ((sizeWide : ℚ) - 1) * moduleSpacing
  let frameH := (sizeUp : ℚ) * moduleH + ((sizeUp : ℚ) - 1) * moduleSpacing
  let stepX := frameW + frameSpacing
  let stepY := frameH + rowSpacing
  let origin := t.centroid inset
  let ringCoords := inset.rings.head?.getD []
  let projX := ringCoords.map fun p => t.dist origin p * t.cosDeg (t.bearingF origin p - bearingX)
  let projY := ringCoords.map fun p => t.dist origin p * t.cosDeg (t.bearingF origin p - bearingY)
  let widthM := max 0 (listMax projX - listMin projX)
  let heightM := max 0 (listMax projY - listMin projY)
  let southWest := shiftPt t.dest (shiftPt t.dest origin (listMin projY) bearingY)
    (listMin projX) bearingX
  let leftoverX := max 0 (widthM - frameW)
  let mX := marginX pp.alignment leftoverX stepX
  let startNorth := frameH / 2
  let startEast := mX + frameW / 2
  let yCount := loopCount startNorth (heightM - frameH / 2 + 1 / 1000000) stepY
  let xCount := loopCount startEast (widthM - frameW / 2 + 1 / 1000000) stepX
  (List.range yCount).flatMap fun j =>
    let yOff := startNorth + (j : ℚ) * stepY
    let frameRowBase := t.dest southWest yOff bearingY
    (List.range xCount).flatMap fun i =>
      let xOff := startEast + (i : ℚ) * stepX
      let frameCenter := t.dest frameRowBase xOff bearingX
      let frameTopLeft := t.dest
        (t.dest frameCenter (frameW / 2) (jsMod (bearingX + 180) 360)) (frameH / 2) bearingY
      (List.range sizeUp.toNat).flatMap fun r =>
        (List.range sizeWide.toNat).map fun c =>
          let xIn := (c : ℚ) * (moduleW + moduleSpacing) + moduleW / 2
          let yIn := (r : ℚ) * (moduleH + moduleSpacing) + moduleH / 2
          let alongX := t.dest frameTopLeft xIn bearingX
          let center := t.dest alongX yIn (jsMod (bearingY + 180) 360)
          buildRotatedRect t.dest center (moduleW / 2) (moduleH / 2) bearingX bearingY

/-- The module layout of one segment (lines 1018–1142): compute the inset
buildable region, generate the candidate rectangles, and keep exactly the
candidates whose `turf.booleanWithin(rect, inset)` test passes (a throwing
test counts as failed — the try/catch drops the module either way). -/
def moduleLayout (t : Turf) (pp : PackParams) (turfPoly : TPoly) : List TPoly :=
  (candidateRects t pp (insetRegion t turfPoly pp.setbackFt)).filter
    fun r => t.within r (insetRegion t turfPoly pp.setbackFt)

/-- C2: a rectangle is emitted by the packer exactly when it is a
generated candidate that passes the containment test against the
setback-inset buildable region (so every emitted module is fully contained
in the inset region and every non-contained candidate is dropped), and
with a non-positive setback the inset region is the original ring itself,
so all emitted modules then lie within the original ring boundary. -/
theorem c2_modules_within_inset (t : Turf) (pp : PackParams) (turfPoly : TPoly) :
    (∀ r, r ∈ moduleLayout t pp turfPoly ↔
        r ∈ candidateRects t pp (insetRegion t turfPoly pp.setbackFt) ∧
          t.within r (insetRegion t turfPoly pp.setbackFt) = true)
    ∧ (∀ r ∈ moduleLayout t pp turfPoly,
        t.within r (insetRegion t turfPoly pp.setbackFt) = true)
    ∧ (pp.setbackFt ≤ 0 →
        insetRegion t turfPoly pp.setbackFt = turfPoly ∧
          ∀ r ∈ moduleLayout t pp turfPoly, t.within r turfPoly = true) := by
  have hmem : ∀ r, r ∈ moduleLayout t pp turfPoly ↔
      r ∈ candidateRects t pp (insetRegion t turfPoly pp.setbackFt) ∧
        t.within r (insetRegion t turfPoly pp.setbackFt) = true := by
    intro r
    unfold moduleLayout
    exact List.mem_filter
  refine ⟨hmem, fun r hr => ((hmem r).mp hr).2, fun hsb => ?_⟩
  have hinset := insetRegion_of_nonpos_setback t turfPoly pp.setbackFt hsb
  refine ⟨hinset, fun r hr => ?_⟩
  have := ((hmem r).mp hr).2
  rwa [hinset] at this

/-- Witness for C2: a degenerate turf record and a zero setback; the
inset region is the original polygon and the (empty-by-containment)
layout is vacuously within it. -/
theorem c2_witness :
    insetRegion
        { dest := fun p _ _ => p, dist := fun _ _ => 0, bearingF := fun _ _ => 0,
          cosDeg := fun _ => 1, centroid := fun _ => ⟨0, 0⟩, area := fun _ => 0,
          buffer := fun _ _ => none, within := fun _ _ => false }
        ⟨[[⟨0, 0⟩, ⟨10, 0⟩, ⟨0, 10⟩, ⟨0, 0⟩]]⟩ 0 = ⟨[[⟨0, 0⟩, ⟨10, 0⟩, ⟨0, 10⟩, ⟨0, 0⟩]]⟩ ∧
      ∀ r ∈ moduleLayout
          { dest := fun p _ _ => p, dist := fun _ _ => 0, bearingF := fun _ _ => 0,
            cosDeg := fun _ => 1, centroid := fun _ => ⟨0, 0⟩, area := fun _ => 0,
            buffer := fun _ _ => none, within := fun _ _ => false }
          { setbackFt := 0, dimWidth := 1, dimHeight := 2, portrait := false,
            moduleSpacingFt := 0, frameSpacingFt := 0, rowSpacingFt := 0,
            frameSizeWide := 1, frameSizeUp := 1, moduleAzimuth := 180,
            alignment := .center }
          ⟨[[⟨0, 0⟩, ⟨10, 0⟩, ⟨0, 10⟩, ⟨0, 0⟩]]⟩,
        ({ dest := fun p _ _ => p, dist := fun _ _ => 0, bearingF := fun _ _ => 0,
           cosDeg := fun _ => 1, centroid := fun _ => ⟨0, 0⟩, area := fun _ => 0,
           buffer := fun _ _ => none, within := fun _ _ => false } : Turf).within r
          ⟨[[⟨0, 0⟩, ⟨10, 0⟩, ⟨0, 10⟩, ⟨0, 0⟩]]⟩ = true :=
  (c2_modules_within_inset
    { dest := fun p _ _ => p, dist := fun _ _ => 0, bearingF := fun _ _ => 0,
      cosDeg := fun _ => 1, centroid := fun _ => ⟨0, 0⟩, area := fun _ => 0,
      buffer := fun _ _ => none, within := fun _ _ => false }
    { setbackFt := 0, dimWidth := 1, dimHeight := 2, portrait := false,
      moduleSpacingFt := 0, frameSpacingFt := 0, rowSpacingFt := 0,
      frameSizeWide := 1, frameSizeUp := 1, moduleAzimuth := 180,
      alignment := .center }
    ⟨[[⟨0, 0⟩, ⟨10, 0⟩, ⟨0, 10⟩, ⟨0, 0⟩]]⟩).2.2 le_rfl

/-- C8: the starting X-axis margin is `(leftoverX % stepX) / 2` for
center, the full `leftoverX % stepX` for right, 0 for left, and for
justify it coincides with center — and consequently the entire packed
module layout under justify is identical to the one under center on the
same input.  For the code's `leftoverX = max 0 (widthM - frameW) ≥ 0` and
a positive `stepX`, the JavaScript `%` here is the ordinary
remainder, lying in `[0, stepX)`. -/
theorem c8_alignment_margin (leftoverX stepX : ℚ) (t : Turf) (pp : PackParams)
    (turfPoly : TPoly) :
    marginX .center leftoverX stepX = jsMod leftoverX stepX / 2
    ∧ marginX .right leftoverX stepX = jsMod leftoverX stepX
    ∧ marginX .left leftoverX stepX = 0
    ∧ marginX .justify leftoverX stepX = marginX .center leftoverX stepX
    ∧ (0 ≤ leftoverX → 0 < stepX →
        jsMod leftoverX stepX = leftoverX - stepX * ⌊leftoverX / stepX⌋ ∧
          0 ≤ jsMod leftoverX stepX ∧ jsMod leftoverX stepX < stepX)
    ∧ moduleLayout t { pp with alignment := .justify } turfPoly =
        moduleLayout t { pp with alignment := .center } turfPoly := by
  refine ⟨rfl, rfl, rfl, rfl, fun hL hs => ?_, rfl⟩
  exact ⟨jsMod_of_nonneg leftoverX stepX hL hs, jsMod_nonneg leftoverX stepX hL hs,
    jsMod_lt leftoverX stepX hL hs⟩

/-- Witness for C8 at `leftoverX = 7`, `stepX = 3`. -/
theorem c8_witness :
    jsMod 7 3 = 7 - 3 * ⌊(7 : ℚ) / 3⌋ ∧ 0 ≤ jsMod 7 3 ∧ jsMod 7 3 < 3 :=
  (c8_alignment_margin 7 3
    { dest := fun p _ _ => p, dist := fun _ _ => 0, bearingF := fun _ _ => 0,
      cosDeg := fun _ => 1, centroid := fun _ => ⟨0, 0⟩, area := fun _ => 0,
      buffer := fun _ _ => none, within := fun _ _ => false }
    { setbackFt := 0, dimWidth := 1, dimHeight := 2, portrait := false,
      moduleSpacingFt := 0, frameSpacingFt := 0, rowSpacingFt := 0,
      frameSizeWide := 1, frameSizeUp := 1, moduleAzimuth := 180,
      alignment := .center }
    ⟨[[⟨0, 0⟩, ⟨10, 0⟩, ⟨0, 10⟩, ⟨0, 0⟩]]⟩).2.2.2.2.1 (by norm_num) (by norm_num)

/-! ## Drawing state machine: snap-to-close latch (handleMouseMove, lines 680–800)

Per pointer-move event the handler reads the in-progress geometry's
coordinate list (the last entry is the preview point), computes
`snapDistanceMeters = SNAP_DISTANCE_PX * map.getResolution()`, and sets
`isClosingSnap` when more than two coordinates exist and the cursor is
within that distance of the first vertex.  Inside the snap it rewrites the
preview (last) coordinate to exactly the first vertex and, unless the
`autoClosingRef` latch is set, sets the latch and fires `endDraw()`; when
`isClosingSnap` is false the latch is cleared. -/

/-- One pointer-move event: the current geometry coordinates (preview
point last), the cursor position, and the current map resolution. -/
structure MoveInput where
  coords : List Pt
  mouse : Pt
  res : ℚ
deriving Repr

/-- The mutable refs the handler touches, plus an `endDrawCount`
instrumentation counting `endDraw()` calls. -/
structure DrawState where
  autoClosing : Bool
  closingSnapActive : Bool
  endDrawCount : ℕ
  geomCoords : List Pt
deriving DecidableEq, Repr

/-- Lines 704–711: the closing-snap test (`turf.distance` abstracted as
`dist`). -/
def isClosingSnapOn (dist : Pt → Pt → ℚ) (i : MoveInput) : Bool :=
  match i.coords.head? with
  | none => false
  | some f => decide (2 < i.coords.length) &&
      decide (dist i.mouse f < SNAP_DISTANCE_PX * i.res)

/-- The state transition of one `handleMouseMove` event (lines 700–740):
snap branch rewrites the preview point onto the first vertex and fires
`endDraw` once per latch; the non-snap branch clears the latch.  (The
start marker sits at the first committed vertex, so `startCoord` is the
head of the coordinate list.) -/
def moveStep (dist : Pt → Pt → ℚ) (i : MoveInput) (s : DrawState) : DrawState :=
  if isClosingSnapOn dist i then
    let newCoords :=
      match i.coords.head? with
      | some f => i.coords.dropLast ++ [f]
      | none => i.coords
    if s.autoClosing then
      { s with closingSnapActive := true, geomCoords := newCoords }
    else
      { autoClosing := true, closingSnapActive := true,
        endDrawCount := s.endDrawCount + 1, geomCoords := newCoords }
  else
    { s with autoClosing := false, closingSnapActive := false, geomCoords := i.coords }

/-- A sequence of pointer-move events processed in order. -/
def runMoves (dist : Pt → Pt → ℚ) (inputs : List MoveInput) (s : DrawState) : DrawState :=
  inputs.foldl (fun st i => moveStep dist i st) s

theorem moveStep_snap_fires (dist : Pt → Pt → ℚ) (i : MoveInput) (s : DrawState)
    (hsnap : isClosingSnapOn dist i = true) (hlatch : s.autoClosing = false) :
    (moveStep dist i s).endDrawCount = s.endDrawCount + 1 ∧
      (moveStep dist i s).autoClosing = true := by
  unfold moveStep
  rw [hsnap, if_pos rfl, hlatch]
  exact ⟨rfl, rfl⟩

theorem runMoves_latched (dist : Pt → Pt → ℚ) :
    ∀ (inputs : List MoveInput) (s : DrawState),
      (∀ i ∈ inputs, isClosingSnapOn dist i = true) → s.autoClosing = true →
        (runMoves dist inputs s).endDrawCount = s.endDrawCount ∧
          (runMoves dist inputs s).autoClosing = true := by
  intro inputs
  induction inputs with
  | nil => exact fun s _ h => ⟨rfl, h⟩
  | cons i is ih =>
    intro s hall hlatch
    have hsnap := hall i (List.mem_cons_self i is)
    have hstep : (moveStep dist i s).autoClosing = true ∧
        (moveStep dist i s).endDrawCount = s.endDrawCount := by
      unfold moveStep
      rw [hsnap, if_pos rfl, hlatch, if_pos rfl]
      exact ⟨rfl, rfl⟩
    unfold runMoves
    rw [List.foldl_cons]
    have := ih (moveStep dist i s) (fun j hj => hall j (List.mem_cons_of_mem i hj)) hstep.1
    unfold runMoves at this
    rw [this.1, hstep.2]
    exact ⟨rfl, this.2⟩

/-- C7: once the in-progress ring has more than two vertices and the
cursor is within `SNAP_DISTANCE_PX * resolution` of the first vertex
(`isClosingSnapOn`), a move event snaps the preview point exactly onto the
first vertex's coordinates, marks the closing snap active and
auto-completes the draw; across any sequence of move events that all stay
in the snap condition, `endDraw` fires exactly once from an unlatched
state and never again from a latched one; and the latch is cleared exactly
by a move event outside the snap condition. -/
theorem c7_snap_close_latch (dist : Pt → Pt → ℚ) (i : MoveInput) (s : DrawState)
    (inputs : List MoveInput) (f : Pt)
    (hsnap : isClosingSnapOn dist i = true) (hhead : i.coords.head? = some f)
    (hall : ∀ j ∈ inputs, isClosingSnapOn dist j = true) :
    ((moveStep dist i s).geomCoords.getLast? = some f ∧
      (moveStep dist i s).closingSnapActive = true)
    ∧ (s.autoClosing = false → inputs ≠ [] →
        (runMoves dist inputs s).endDrawCount = s.endDrawCount + 1 ∧
          (runMoves dist inputs s).autoClosing = true)
    ∧ (s.autoClosing = true →
        (runMoves dist inputs s).endDrawCount = s.endDrawCount ∧
          (runMoves dist inputs s).autoClosing = true)
    ∧ (isClosingSnapOn dist i = false →
        (moveStep dist i s).autoClosing = false ∧
          (moveStep dist i s).endDrawCount = s.endDrawCount) := by
  refine ⟨?_, ?_, ?_, ?_⟩
  · unfold moveStep
    rw [hsnap, if_pos rfl, hhead]
    by_cases h : s.autoClosing
    · rw [if_pos h]
      exact ⟨by simp, rfl⟩
    · rw [if_neg h]
      exact ⟨by simp, rfl⟩
  · intro hlatch hne
    match inputs, hne with
    | j :: js, _ =>
      have hjsnap := hall j (List.mem_cons_self j js)
      have hfire := moveStep_snap_fires dist j s hjsnap hlatch
      unfold runMoves
      rw [List.foldl_cons]
      have := runMoves_latched dist js (moveStep dist j s)
        (fun k hk => hall k (List.mem_cons_of_mem j hk)) hfire.2
      unfold runMoves at this
      rw [this.1, hfire.1]
      exact ⟨rfl, this.2⟩
  · exact fun hlatch => runMoves_latched dist inputs s hall hlatch
  · intro hno
    rw [hno] at hsnap
    exact absurd hsnap (by simp)

/-- Witness for C7: a square being drawn, cursor back on the first vertex
with snap distance met; `endDraw` fires exactly once over two hovering
moves. -/
theorem c7_witness :
    ((moveStep (fun p q => |p.x - q.x| + |p.y - q.y|)
        { coords := [⟨0, 0⟩, ⟨10, 0⟩, ⟨10, 10⟩, ⟨1, 1⟩], mouse := ⟨1, 1⟩, res := 1 }
        { autoClosing := false, closingSnapActive := false, endDrawCount := 0,
          geomCoords := [] }).geomCoords.getLast? = some ⟨0, 0⟩ ∧
      (moveStep (fun p q => |p.x - q.x| + |p.y - q.y|)
        { coords := [⟨0, 0⟩, ⟨10, 0⟩, ⟨10, 10⟩, ⟨1, 1⟩], mouse := ⟨1, 1⟩, res := 1 }
        { autoClosing := false, closingSnapActive := false, endDrawCount := 0,
          geomCoords := [] }).closingSnapActive = true)
    ∧ (runMoves (fun p q => |p.x - q.x| + |p.y - q.y|)
        [{ coords := [⟨0, 0⟩, ⟨10, 0⟩, ⟨10, 10⟩, ⟨1, 1⟩], mouse := ⟨1, 1⟩, res := 1 },
         { coords := [⟨0, 0⟩, ⟨10, 0⟩, ⟨10, 10⟩, ⟨1, 1⟩], mouse := ⟨1, 1⟩, res := 1 }]
        { autoClosing := false, closingSnapActive := false, endDrawCount := 0,
          geomCoords := [] }).endDrawCount =
        ({ autoClosing := false, closingSnapActive := false, endDrawCount := 0,
           geomCoords := [] } : DrawState).endDrawCount + 1 ∧
      (runMoves (fun p q => |p.x - q.x| + |p.y - q.y|)
        [{ coords := [⟨0, 0⟩, ⟨10, 0⟩, ⟨10, 10⟩, ⟨1, 1⟩], mouse := ⟨1, 1⟩, res := 1 },
         { coords := [⟨0, 0⟩, ⟨10, 0⟩, ⟨10, 10⟩, ⟨1, 1⟩], mouse := ⟨1, 1⟩, res := 1 }]
        { autoClosing := false, closingSnapActive := false, endDrawCount := 0,
          geomCoords := [] }).autoClosing = true := by
  have h := c7_snap_close_latch (fun p q => |p.x - q.x| + |p.y - q.y|)
    { coords := [⟨0, 0⟩, ⟨10, 0⟩, ⟨10, 10⟩, ⟨1, 1⟩], mouse := ⟨1, 1⟩, res := 1 }
    { autoClosing := false, closingSnapActive := false, endDrawCount := 0, geomCoords := [] }
    [{ coords := [⟨0, 0⟩, ⟨10, 0⟩, ⟨10, 10⟩, ⟨1, 1⟩], mouse := ⟨1, 1⟩, res := 1 },
     { coords := [⟨0, 0⟩, ⟨10, 0⟩, ⟨10, 10⟩, ⟨1, 1⟩], mouse := ⟨1, 1⟩, res := 1 }]
    ⟨0, 0⟩
    (by simp [isClosingSnapOn, SNAP_DISTANCE_PX]; norm_num) rfl
    (by intro j hj
        rcases List.mem_cons.mp hj with rfl | hj2
        · simp [isClosingSnapOn, SNAP_DISTANCE_PX]; norm_num
        · rcases List.mem_cons.mp hj2 with rfl | hj3
          · simp [isClosingSnapOn, SNAP_DISTANCE_PX]; norm_num
          · exact absurd hj3 (List.not_mem_nil j))
  exact ⟨h.1, h.2.1 rfl (List.cons_ne_nil _ _)⟩

/-- Witness for C3 at a concrete inverted window. -/
theorem c3_witness :
    sampleMinutes 3 1 = (List.range (max 3 1 - min 3 1 + 1)).map (min 3 1 + ·) :=
  (c3_interval_aggregation (G := Unit) (fun _ => ()) (fun _ _ => none) (fun p _ _ => p)
    (fun x => x) (fun x => x) (fun _ => none) [] 0 0 0 3 1).1

/-- Witness for C9 at a concrete two-segment list. -/
theorem c9_witness :
    (handleDeleteSegment [⟨1, 0⟩, ⟨2, 5⟩] 1 true).2 = [⟨1, 0⟩, ⟨2, 5⟩] :=
  (c9_delete_rollback [⟨1, 0⟩, ⟨2, 5⟩] 1).2.1

end Solar
